import Mathlib

/-!
Verification development for the P2P file-exchange peer `TP2/tp2_tarcisio.py`.

The byte-stream connection is modelled as a list of chunks (`List (List Nat)`):
each chunk is the byte sequence one `recv` call delivers.  An exhausted chunk
list (or an empty chunk) models the peer having closed the connection, in which
case `recv` returns the empty byte string.  Bytes are `Nat`s; `struct.pack('!I')`
and `struct.unpack('!I')` become explicit base-256 arithmetic.
-/

/-- `struct.pack('!I', n)`: 4-byte unsigned big-endian encoding; `none` models
the `struct.error` raised when `n` does not fit in 32 bits. -/
def packBE4 (n : Nat) : Option (List Nat) :=
  if n < 4294967296 then
    some [n / 16777216 % 256, n / 65536 % 256, n / 256 % 256, n % 256]
  else none

/-- `struct.unpack('!I', bs)`: requires exactly 4 bytes (`none` models
`struct.error` otherwise) and decodes big-endian. -/
def unpackBE4 : List Nat → Option Nat
  | [a, b, c, d] => some (a * 16777216 + b * 65536 + c * 256 + d)
  | _ => none

/-- `enviar_frame` (tp2_tarcisio.py lines 44-50): sends
`struct.pack('!I', len(payload)) + payload`. -/
def enviar_frame (payload : List Nat) : Option (List Nat) :=
  (packBE4 payload.length).map (fun hdr => hdr ++ payload)

/-- The exceptions `receber_frame` can raise: the two `ConnectionError`s of the
source (closed while reading the header, interrupted during the body) and the
`struct.error` escaping from `struct.unpack` on a short header. -/
inductive FrameError where
  | connectionClosedHeader
  | structError
  | connectionClosedBody
deriving DecidableEq

/-- The body loop of `receber_frame` (lines 63-69):
`while len(dados) < tam: parte = conn.recv(tam - len(dados)); if not parte:
raise; dados += parte`.  Since the loop asks `recv` for exactly the number of
bytes still missing, a chunk longer than that is consumed only partially and
its remainder stays buffered while the loop exits (the guard is reached);
hence the recursion is structural over the chunk list. -/
def recvLoop (tam : Nat) : List (List Nat) → List Nat →
    Except FrameError (List Nat × List (List Nat))
  | [], dados =>
    if tam ≤ dados.length then Except.ok (dados, [])
    else Except.error FrameError.connectionClosedBody
  | c :: rest, dados =>
    if tam ≤ dados.length then Except.ok (dados, c :: rest)
    else if c.length = 0 then Except.error FrameError.connectionClosedBody
    else if c.length ≤ tam - dados.length then recvLoop tam rest (dados ++ c)
    else Except.ok (dados ++ c.take (tam - dados.length),
                    c.drop (tam - dados.length) :: rest)

/-- `receber_frame` (lines 53-71).  The header is obtained by a single
`conn.recv(4)` — there is no accumulation loop for it — then
`struct.unpack('!I', header)`, then the body loop.  Returns the frame payload
together with the bytes still buffered on the connection. -/
def receber_frame : List (List Nat) → Except FrameError (List Nat × List (List Nat))
  | [] => Except.error FrameError.connectionClosedHeader
  | c :: rest =>
    if c.length = 0 then Except.error FrameError.connectionClosedHeader
    else
      match unpackBE4 (c.take 4) with
      | none => Except.error FrameError.structError
      | some tam => recvLoop tam (if c.length ≤ 4 then rest else c.drop 4 :: rest) []

/-- When the chunks deliver exactly `tam` bytes in total (every chunk
nonempty), the body loop accumulates all of them. -/
theorem recvLoop_exact (cs : List (List Nat)) : ∀ (dados : List Nat) (tam : Nat),
    (∀ c ∈ cs, c ≠ []) → dados.length + cs.flatten.length = tam →
    recvLoop tam cs dados = Except.ok (dados ++ cs.flatten, ([] : List (List Nat))) := by
  induction cs with
  | nil =>
    intro dados tam _ htot
    simp only [List.flatten_nil, List.length_nil, Nat.add_zero] at htot
    simp [recvLoop, htot]
  | cons c rest ih =>
    intro dados tam hne htot
    have hc : c ≠ [] := hne c (by simp)
    have hclen : 0 < c.length := List.length_pos.mpr hc
    simp only [List.flatten_cons, List.length_append] at htot
    rw [recvLoop]
    rw [if_neg (by omega), if_neg (by omega), if_pos (by omega)]
    rw [ih (dados ++ c) tam (fun x hx => hne x (by simp [hx]))
        (by simp only [List.length_append]; omega)]
    simp [List.append_assoc]

/-- Claim C5: for every byte sequence `b` (zero length included), decoding the
byte stream produced by `enviar_frame b` with `receber_frame` yields exactly
`b`, for every delivery of the body in nonempty chunks (partial network reads
included). -/
theorem frame_roundtrip (b : List Nat) (cs : List (List Nat))
    (hlen : b.length < 4294967296) (hjoin : cs.flatten = b)
    (hne : ∀ c ∈ cs, c ≠ []) :
    ∃ hdr, enviar_frame b = some (hdr ++ b) ∧
      receber_frame (hdr :: cs) = Except.ok (b, ([] : List (List Nat))) := by
  refine ⟨[b.length / 16777216 % 256, b.length / 65536 % 256,
           b.length / 256 % 256, b.length % 256], ?_, ?_⟩
  · simp [enviar_frame, packBE4, hlen]
  · have hdec : b.length / 16777216 % 256 * 16777216 + b.length / 65536 % 256 * 65536 +
        b.length / 256 % 256 * 256 + b.length % 256 = b.length := by omega
    simp only [receber_frame, List.length_cons, List.length_nil, List.take, unpackBE4]
    rw [if_neg (by simp), if_pos (by simp)]
    rw [hdec]
    have := recvLoop_exact cs [] b.length hne (by simp [hjoin])
    simpa [hjoin] using this

/-- Claim C5 witness: a concrete round trip with the body split across two
chunks. -/
theorem frame_roundtrip_witness :
    ([1, 2, 3] : List Nat).length < 4294967296 ∧
    ([[1], [2, 3]] : List (List Nat)).flatten = [1, 2, 3] ∧
    (∀ c ∈ ([[1], [2, 3]] : List (List Nat)), c ≠ []) ∧
    ∃ hdr, enviar_frame [1, 2, 3] = some (hdr ++ [1, 2, 3]) ∧
      receber_frame (hdr :: [[1], [2, 3]]) = Except.ok ([1, 2, 3], ([] : List (List Nat))) :=
  ⟨by decide, by decide, by decide,
   frame_roundtrip [1, 2, 3] [[1], [2, 3]] (by decide) (by decide) (by decide)⟩

/-- Claim C2: `receber_frame` does NOT accumulate partial reads of the 4-byte
header.  When TCP delivers the header in two 2-byte reads, the code unpacks the
first 2-byte read and dies with `struct.error` — not `ConnectionClosed`, and it
never reaches the fully-available payload `[1, 2, 3]`. -/
theorem receber_frame_partial_header :
    receber_frame [[0, 0], [0, 3], [1, 2, 3]] = Except.error FrameError.structError := rfl

/-- The mutable state of one `Peer` (tp2_tarcisio.py lines 79-108) that the
exchange engine touches: the metadata fields (all `None` until acquired), the
block dictionary `self.blocos` and the owned set `self.tenho`. -/
structure PeerState where
  nome_arquivo : Option String
  tamanho_arquivo : Option Nat
  tamanho_bloco : Nat
  num_blocos : Option Nat
  sha256_original : Option String
  blocos : Nat → Option (List Nat)
  tenho : Finset Nat

/-- `Peer.__init__` (lines 95-103): metadata fields set to `None`, empty block
dictionary, empty owned set; `tamanho_bloco` comes from the command line
(default 1024). -/
def mkPeer (tamanho_bloco : Nat) : PeerState :=
  { nome_arquivo := none
    tamanho_arquivo := none
    tamanho_bloco := tamanho_bloco
    num_blocos := none
    sha256_original := none
    blocos := fun _ => none
    tenho := ∅ }

/-- The block-store insertion `self.blocos[idx] = dados; self.tenho.add(idx)`
(lines 304-305 in `worker_baixar`, likewise lines 146-147 in
`preparar_seeder`). -/
def put (p : PeerState) (idx : Nat) (payload : List Nat) : PeerState :=
  { p with blocos := Function.update p.blocos idx (some payload),
           tenho := insert idx p.tenho }

/-- `Peer.preparar_seeder` (lines 114-147).  `os.path.basename` and
`os.path.getsize` feed the name and the byte length of the file;
`hashlib.sha256` is external to the repository and is a parameter `hash` of the
embedding.  `num_blocos = (size + bs - 1) // bs`; the loop of sequential
`f.read(bs)` calls stores block `i = file[i*bs : i*bs+bs]` and adds `i` to
`tenho`. -/
def preparar_seeder (hash : List Nat → String) (nome : String)
    (file : List Nat) (bs : Nat) : PeerState :=
  let n := (file.length + bs - 1) / bs
  { nome_arquivo := some nome
    tamanho_arquivo := some file.length
    tamanho_bloco := bs
    num_blocos := some n
    sha256_original := some (hash file)
    blocos := fun i => if i < n then some ((file.drop (i * bs)).take bs) else none
    tenho := Finset.range n }

/-- The list comprehension `faltam = [i for i in range(self.num_blocos) if i
not in self.tenho]` of `worker_baixar` (line 286). -/
def faltam (tenho : Finset Nat) (num_blocos : Nat) : List Nat :=
  (List.range num_blocos).filter (fun i => i ∉ tenho)

/-- The block-selection step of `worker_baixar` (lines 286-290): the worker for
neighbor `viz` picks `faltam[0]`, the first missing index (`none` when nothing
is missing).  No claim set exists; `viz` plays no role in the choice. -/
def worker_select (viz : String) (tenho : Finset Nat) (num_blocos : Nat) : Option Nat :=
  (faltam tenho num_blocos).head?

/-- One inbound frame as seen by `tratar_conexao` after `receber_frame` +
`json.loads` + `msg["type"]` (lines 179-181): either those three steps raise
(unreadable frame, undecodable JSON, or record without a `type` key) —
`malformed` — or they produce a record with type string `tipo` and an optional
`block_index` field. -/
inductive Inbound where
  | malformed
  | msg (tipo : String) (blockIndex : Option Nat)
deriving DecidableEq

/-- One frame sent back by `tratar_conexao`. -/
inductive Outbound where
  | metadataReply (filename : Option String) (filesize : Option Nat)
      (blocksize : Nat) (numBlocks : Option Nat) (sha256 : Option String)
  | blockHeader (blockIndex : Nat) (blockLen : Nat)
  | blockData (payload : List Nat)
  | errorFrame
deriving DecidableEq

/-- `Peer.tratar_conexao` (lines 176-218): loop reading one request per frame;
METADATA is answered from the peer's (possibly still `None`) metadata fields;
REQUEST is answered with a BLOCK header frame plus a raw block frame only when
`idx in self.tenho`, and silently skipped otherwise; any other type gets an
ERROR frame.  Every exception (malformed frame, missing `block_index` or
missing dictionary entry) lands in the bare `except: pass` and the handler
closes its own connection, returning the replies sent so far. -/
def tratar_conexao (p : PeerState) : List Inbound → List Outbound
  | [] => []
  | Inbound.malformed :: _ => []
  | Inbound.msg tipo bidx :: rest =>
    if tipo = "METADATA" then
      Outbound.metadataReply p.nome_arquivo p.tamanho_arquivo p.tamanho_bloco
        p.num_blocos p.sha256_original :: tratar_conexao p rest
    else if tipo = "REQUEST" then
      match bidx with
      | none => []
      | some idx =>
        if idx ∈ p.tenho then
          match p.blocos idx with
          | none => []
          | some bl =>
            Outbound.blockHeader idx bl.length :: Outbound.blockData bl ::
              tratar_conexao p rest
        else tratar_conexao p rest
    else Outbound.errorFrame :: tratar_conexao p rest

/-- The five fields a METADATA_REPLY carries (lines 262-266 read them out of
the JSON record; any of them may be JSON `null` except `blocksize`, which the
source always produces from an `int`). -/
structure MetaReply where
  filename : Option String
  filesize : Option Nat
  blocksize : Nat
  num_blocks : Option Nat
  sha256 : Option String
deriving DecidableEq

/-- The metadata adoption of `obter_metadata` (lines 262-266). -/
def adoptMetadata (p : PeerState) (r : MetaReply) : PeerState :=
  { p with nome_arquivo := r.filename
           tamanho_arquivo := r.filesize
           tamanho_bloco := r.blocksize
           num_blocos := r.num_blocks
           sha256_original := r.sha256 }

/-- `Peer.obter_metadata` (lines 251-275) over the outcome of contacting each
neighbor in `self.vizinhos`, in order: `none` collapses every failure the bare
`except: continue` swallows (refused connection, 2-second timeout, unreadable
or unparsable reply); `some r` is a reply whose five fields were extracted.
The result is `Except.error ()` for the final `logging.error(...); exit()`, or
the updated peer together with how many neighbors were contacted. -/
def obter_metadata (p : PeerState) : List (Option MetaReply) → Except Unit (PeerState × Nat)
  | [] => Except.error ()
  | none :: rest => (obter_metadata p rest).map (fun qk => (qk.1, qk.2 + 1))
  | some r :: _ => Except.ok (adoptMetadata p r, 1)

/-- Outcome of the SHA-256 comparison at the end of `reconstruir_arquivo`
(lines 329-332): `verified` is the `[OK]` log, `corrupt` the `[ERRO]` log. -/
inductive Verdict where
  | verified
  | corrupt
deriving DecidableEq

/-- The write loop of `reconstruir_arquivo` (lines 318-320): `f.write(self.blocos[i])`
for `i in range(num)`; a missing index would raise `KeyError` (`none`). -/
def escreverBlocos (blocos : Nat → Option (List Nat)) (num : Nat) : Option (List Nat) :=
  (List.range num).foldl
    (fun acc i =>
      match acc, blocos i with
      | some a, some b => some (a ++ b)
      | _, _ => none)
    (some [])

/-- `Peer.reconstruir_arquivo` (lines 317-332): concatenate the blocks in
ascending index order into the output file, hash the written file (the external
`hashlib.sha256` is the parameter `hash`), and compare with
`self.sha256_original`.  Returns the written bytes and the verdict; the block
store is not touched and no re-download happens. -/
def reconstruir_arquivo (hash : List Nat → String) (p : PeerState) :
    Option (List Nat × Verdict) :=
  match p.num_blocos with
  | none => none
  | some n =>
    (escreverBlocos p.blocos n).map (fun out =>
      (out, if some (hash out) = p.sha256_original then Verdict.verified
            else Verdict.corrupt))

/-- Claim C1 (code evaluated at the failing input): worker selection in
`worker_baixar` depends only on the shared `(tenho, num_blocos)` state — there
is no claim set — so any two workers racing over the same state pick the same
index; concretely, the workers for neighbors `127.0.0.1:5000` and
`127.0.0.1:5001`, both seeing the shared empty owned set with 2 missing
blocks, both pursue block 0. -/
theorem worker_select_no_claims :
    (∀ (v1 v2 : String) (tenho : Finset Nat) (n : Nat),
       worker_select v1 tenho n = worker_select v2 tenho n) ∧
    worker_select "127.0.0.1:5000" ∅ 2 = some 0 ∧
    worker_select "127.0.0.1:5001" ∅ 2 = some 0 :=
  ⟨fun _ _ _ _ => rfl, by decide, by decide⟩

/-- Claim C8: re-inserting an already-stored `(idx, payload)` pair is a no-op —
the owned set and the stored bytes after two `put`s equal those after one. -/
theorem put_idempotent (p : PeerState) (idx : Nat) (payload : List Nat) :
    put (put p idx payload) idx payload = put p idx payload := by
  simp [put, Function.update_idem]

/-- Claim C9: a well-formed REQUEST for a block the peer does not own produces
no reply at all — no BLOCK header, no ERROR frame — and the handler proceeds
to the next request as if the REQUEST had not happened. -/
theorem request_not_owned_silent (p : PeerState) (idx : Nat) (rest : List Inbound)
    (h : idx ∉ p.tenho) :
    tratar_conexao p (Inbound.msg "REQUEST" (some idx) :: rest) =
      tratar_conexao p rest := by
  simp [tratar_conexao, h]

/-- Claim C9 witness: a fresh peer owns nothing; a REQUEST for block 0 followed
by a METADATA request yields exactly the reply of the METADATA request alone. -/
theorem request_not_owned_silent_witness :
    (0 ∉ (mkPeer 1024).tenho) ∧
    tratar_conexao (mkPeer 1024)
        (Inbound.msg "REQUEST" (some 0) :: [Inbound.msg "METADATA" none]) =
      tratar_conexao (mkPeer 1024) [Inbound.msg "METADATA" none] :=
  ⟨by decide, request_not_owned_silent (mkPeer 1024) 0 [Inbound.msg "METADATA" none]
      (by decide)⟩

/-- Claim C10: a peer whose metadata fields are all still unset answers a
METADATA request immediately with a METADATA_REPLY whose filename, filesize,
num_blocks and sha256 are null and whose blocksize is its local
`tamanho_bloco` — not with an ERROR and not by blocking. -/
theorem metadata_request_before_known (p : PeerState) (bidx : Option Nat)
    (rest : List Inbound) (h1 : p.nome_arquivo = none)
    (h2 : p.tamanho_arquivo = none) (h3 : p.num_blocos = none)
    (h4 : p.sha256_original = none) :
    tratar_conexao p (Inbound.msg "METADATA" bidx :: rest) =
      Outbound.metadataReply none none p.tamanho_bloco none none ::
        tratar_conexao p rest := by
  simp [tratar_conexao, h1, h2, h3, h4]

/-- Claim C10 witness: a freshly initialized peer (block size 1024, the
argparse default) answers METADATA with an all-null reply carrying
blocksize 1024. -/
theorem metadata_request_before_known_witness :
    ((mkPeer 1024).nome_arquivo = none) ∧ ((mkPeer 1024).tamanho_arquivo = none) ∧
    ((mkPeer 1024).num_blocos = none) ∧ ((mkPeer 1024).sha256_original = none) ∧
    tratar_conexao (mkPeer 1024) (Inbound.msg "METADATA" none :: []) =
      Outbound.metadataReply none none (mkPeer 1024).tamanho_bloco none none ::
        tratar_conexao (mkPeer 1024) [] :=
  ⟨rfl, rfl, rfl, rfl,
   metadata_request_before_known (mkPeer 1024) none [] rfl rfl rfl rfl⟩

/-- Claim C7 counterexample: on a malformed frame the handler of a fresh peer
sends nothing at all — in particular no ERROR frame — contradicting the claim
that every malformed request is answered with a single ERROR frame. -/
theorem malformed_frame_no_error_reply :
    tratar_conexao (mkPeer 1024) [Inbound.malformed] = [] ∧
    Outbound.errorFrame ∉ tratar_conexao (mkPeer 1024) [Inbound.malformed] :=
  ⟨rfl, by simp [tratar_conexao]⟩

/-- Claim C7 (amended): a decodable request whose type is neither METADATA nor
REQUEST is answered with a single ERROR frame and the session continues; a
malformed frame is answered with nothing and the handler closes its own
connection (the remaining requests are never read). -/
theorem unknown_type_error_reply (p : PeerState) (tipo : String) (bidx : Option Nat)
    (rest : List Inbound) (h1 : tipo ≠ "METADATA") (h2 : tipo ≠ "REQUEST") :
    tratar_conexao p (Inbound.msg tipo bidx :: rest) =
      Outbound.errorFrame :: tratar_conexao p rest ∧
    tratar_conexao p (Inbound.malformed :: rest) = [] :=
  ⟨by simp [tratar_conexao, h1, h2], rfl⟩

/-- Claim C7 witness: type `PING` is unrecognized and gets exactly one ERROR
frame. -/
theorem unknown_type_error_reply_witness :
    ("PING" ≠ "METADATA") ∧ ("PING" ≠ "REQUEST") ∧
    (tratar_conexao (mkPeer 1024) (Inbound.msg "PING" none :: []) =
       Outbound.errorFrame :: tratar_conexao (mkPeer 1024) [] ∧
     tratar_conexao (mkPeer 1024) (Inbound.malformed :: []) = []) :=
  ⟨by decide, by decide,
   unknown_type_error_reply (mkPeer 1024) "PING" none [] (by decide) (by decide)⟩

/-- Claim C6: metadata acquisition walks the neighbor list in order; after any
all-failing prefix `pre`, the first neighbor that answers successfully has its
five reply fields adopted wholesale and iteration stops — exactly
`pre.length + 1` neighbors were contacted, whatever comes later; and on a
neighbor list whose members all fail, the process reports and exits
(`Except.error ()`). -/
theorem obter_metadata_first_success (p : PeerState)
    (pre rest : List (Option MetaReply)) (r : MetaReply)
    (hpre : ∀ x ∈ pre, x = none) :
    obter_metadata p (pre ++ some r :: rest) =
      Except.ok (adoptMetadata p r, pre.length + 1) ∧
    obter_metadata p pre = Except.error () := by
  induction pre with
  | nil => simp [obter_metadata]
  | cons x xs ih =>
    have hx : x = none := hpre x (by simp)
    subst hx
    have := ih (fun y hy => hpre y (by simp [hy]))
    refine ⟨?_, ?_⟩
    · simp only [List.cons_append, obter_metadata, List.append_eq]
      rw [this.1]
      rfl
    · simp [obter_metadata, this.2, Except.map]

/-- Claim C6 witness: with two failing neighbors before a successful one, the
reply of the third neighbor is adopted, exactly 3 neighbors are contacted, and
the two failing neighbors alone would make the peer exit. -/
theorem obter_metadata_first_success_witness :
    (∀ x ∈ ([none, none] : List (Option MetaReply)), x = none) ∧
    (obter_metadata (mkPeer 1024)
        ([none, none] ++ some ⟨some "fileA.bin", some 10000, 1024, some 10, some "abc"⟩ ::
          [some ⟨some "other.bin", some 1, 1, some 1, some "zzz"⟩]) =
      Except.ok (adoptMetadata (mkPeer 1024)
          ⟨some "fileA.bin", some 10000, 1024, some 10, some "abc"⟩,
        ([none, none] : List (Option MetaReply)).length + 1) ∧
     obter_metadata (mkPeer 1024) [none, none] = Except.error ()) :=
  ⟨by decide,
   obter_metadata_first_success (mkPeer 1024) [none, none]
     [some ⟨some "other.bin", some 1, 1, some 1, some "zzz"⟩]
     ⟨some "fileA.bin", some 10000, 1024, some 10, some "abc"⟩ (by decide)⟩

/-- Claim C4: for a seeder file of positive size and positive block size,
`preparar_seeder` produces `num_blocos = ceil(size / bs)` (characterized by
`(n-1)*bs < size ≤ n*bs` and computed as `(size + bs - 1) / bs`), every block
before the last has length exactly `bs`, and the last block has length exactly
`size - (n-1)*bs`. -/
theorem preparar_seeder_blocks (hash : List Nat → String) (nome : String)
    (file : List Nat) (bs : Nat) (hsz : 0 < file.length) (hbs : 0 < bs) :
    ∃ n, (preparar_seeder hash nome file bs).num_blocos = some n ∧
      n = (file.length + bs - 1) / bs ∧ 0 < n ∧
      (n - 1) * bs < file.length ∧ file.length ≤ n * bs ∧
      (∀ i, i < n - 1 →
        (preparar_seeder hash nome file bs).blocos i =
          some ((file.drop (i * bs)).take bs) ∧
        ((file.drop (i * bs)).take bs).length = bs) ∧
      (preparar_seeder hash nome file bs).blocos (n - 1) =
        some ((file.drop ((n - 1) * bs)).take bs) ∧
      ((file.drop ((n - 1) * bs)).take bs).length =
        file.length - (n - 1) * bs := by
  have hd := Nat.div_add_mod (file.length + bs - 1) bs
  have hrb : (file.length + bs - 1) % bs < bs := Nat.mod_lt _ hbs
  set L := file.length with hL
  set n := (L + bs - 1) / bs with hn
  set r := (L + bs - 1) % bs with hr
  obtain ⟨k, hk⟩ : ∃ k, bs * n = k := ⟨_, rfl⟩
  rw [hk] at hd
  have hpos : 0 < n := by
    rcases Nat.eq_zero_or_pos n with h0 | h1
    · rw [h0, Nat.mul_zero] at hk; omega
    · exact h1
  have hkn : n * bs = k := by rw [Nat.mul_comm]; exact hk
  have hkbs : bs ≤ k := by
    have h1 := mul_le_mul_right' hpos bs
    rw [Nat.one_mul, hkn] at h1
    exact h1
  have hsubmul : (n - 1) * bs = k - bs := by rw [Nat.sub_mul, Nat.one_mul, hkn]
  have hA : (n - 1) * bs < L := by rw [hsubmul]; omega
  have hB : L ≤ n * bs := by rw [hkn]; omega
  have hblocos : ∀ i, i < n →
      (preparar_seeder hash nome file bs).blocos i =
        some ((file.drop (i * bs)).take bs) := by
    intro i hi
    show (if i < n then some ((file.drop (i * bs)).take bs) else none) = _
    rw [if_pos hi]
  refine ⟨n, rfl, rfl, hpos, hA, hB, ?_, hblocos (n - 1) (by omega), ?_⟩
  · intro i hi
    refine ⟨hblocos i (by omega), ?_⟩
    have hfits : i * bs + bs ≤ L := by
      have h1 := mul_le_mul_right' (show i + 1 ≤ n - 1 by omega) bs
      rw [add_one_mul] at h1
      omega
    simp only [List.length_take, List.length_drop, ← hL]
    omega
  · have hlast : L - (n - 1) * bs ≤ bs := by rw [hsubmul]; omega
    simp only [List.length_take, List.length_drop, ← hL]
    omega

/-- Claim C4 witness: the literal example of the spec — a 10000-byte file with
block size 1024 yields exactly 10 blocks. -/
theorem preparar_seeder_blocks_witness :
    0 < (List.replicate 10000 (0 : Nat)).length ∧ 0 < 1024 ∧
    (preparar_seeder (fun _ => "") "fileA.bin" (List.replicate 10000 0) 1024).num_blocos =
      some 10 ∧
    (∃ n, (preparar_seeder (fun _ => "") "fileA.bin" (List.replicate 10000 0) 1024).num_blocos =
        some n ∧
      n = ((List.replicate 10000 (0 : Nat)).length + 1024 - 1) / 1024 ∧ 0 < n ∧
      (n - 1) * 1024 < (List.replicate 10000 (0 : Nat)).length ∧
      (List.replicate 10000 (0 : Nat)).length ≤ n * 1024 ∧
      (∀ i, i < n - 1 →
        (preparar_seeder (fun _ => "") "fileA.bin" (List.replicate 10000 0) 1024).blocos i =
          some (((List.replicate 10000 0).drop (i * 1024)).take 1024) ∧
        (((List.replicate 10000 (0 : Nat)).drop (i * 1024)).take 1024).length = 1024) ∧
      (preparar_seeder (fun _ => "") "fileA.bin" (List.replicate 10000 0) 1024).blocos (n - 1) =
        some (((List.replicate 10000 0).drop ((n - 1) * 1024)).take 1024) ∧
      (((List.replicate 10000 (0 : Nat)).drop ((n - 1) * 1024)).take 1024).length =
        (List.replicate 10000 (0 : Nat)).length - (n - 1) * 1024) :=
  ⟨by rw [List.length_replicate]; norm_num, by norm_num,
   by show some (((List.replicate 10000 (0 : Nat)).length + 1024 - 1) / 1024) = some 10
      rw [List.length_replicate],
   preparar_seeder_blocks (fun _ => "") "fileA.bin" (List.replicate 10000 0) 1024
     (by rw [List.length_replicate]; norm_num) (by norm_num)⟩

/-- The write loop succeeds on a complete store and produces the concatenation
of the blocks in ascending index order. -/
theorem escreverBlocos_eq (blocos : Nat → Option (List Nat)) :
    ∀ n : Nat, (∀ i, i < n → (blocos i).isSome) →
      escreverBlocos blocos n =
        some (((List.range n).map (fun i => (blocos i).getD [])).flatten)
  | 0, _ => by simp [escreverBlocos]
  | (m + 1), hall => by
    obtain ⟨b, hb⟩ := Option.isSome_iff_exists.mp (hall m (Nat.lt_succ_self m))
    have hm := escreverBlocos_eq blocos m (fun i hi => hall i (Nat.lt_succ_of_lt hi))
    simp only [escreverBlocos] at hm ⊢
    rw [List.range_succ, List.foldl_append, hm]
    simp [hb]

/-- The flattened first `i` blocks occupy exactly `i * bs` bytes when each of
them has length `bs`. -/
theorem flatten_prefix_length (f : Nat → List Nat) (bs : Nat) :
    ∀ i : Nat, (∀ j, j < i → (f j).length = bs) →
      (((List.range i).map f).flatten).length = i * bs
  | 0, _ => by simp
  | (m + 1), h => by
    rw [List.range_succ]
    simp only [List.map_append, List.flatten_append, List.length_append]
    rw [flatten_prefix_length f bs m (fun j hj => h j (Nat.lt_succ_of_lt hj))]
    simp [h m (Nat.lt_succ_self m), Nat.succ_mul]

/-- Splitting the concatenation of `n` blocks at block `i`. -/
theorem flatten_decomp (f : Nat → List Nat) :
    ∀ n i : Nat, i < n → ∃ s,
      ((List.range n).map f).flatten =
        ((List.range i).map f).flatten ++ f i ++ s
  | 0, i, hi => absurd hi (Nat.not_lt_zero i)
  | (m + 1), i, hi => by
    rw [List.range_succ]
    simp only [List.map_append, List.flatten_append]
    rcases Nat.lt_or_ge i m with him | him
    · obtain ⟨s, hs⟩ := flatten_decomp f m i him
      exact ⟨s ++ ([m].map f).flatten, by rw [hs]; simp [List.append_assoc]⟩
    · have : i = m := by omega
      subst this
      exact ⟨[], by simp⟩

/-- Claim C3: with a complete block store (`num_blocos = some n`, every index
below `n` present), `reconstruir_arquivo` writes the blocks in strictly
ascending index order — if every block before block `i` has length `bs`, block
`i` occupies the byte range starting at offset `i * bs` — and then reports
`verified` exactly when the digest of the written bytes equals
`sha256_original`, `corrupt` otherwise; it returns only the written file and
the verdict, leaving the store untouched. -/
theorem reconstruir_arquivo_spec (hash : List Nat → String) (p : PeerState)
    (n bs : Nat) (hn : p.num_blocos = some n)
    (hall : ∀ i, i < n → (p.blocos i).isSome) :
    ∃ out v, reconstruir_arquivo hash p = some (out, v) ∧
      out = ((List.range n).map (fun i => (p.blocos i).getD [])).flatten ∧
      (∀ i, i < n → (∀ j, j < i → ((p.blocos j).getD []).length = bs) →
        (out.drop (i * bs)).take ((p.blocos i).getD []).length =
          (p.blocos i).getD []) ∧
      ((v = Verdict.verified) ↔ some (hash out) = p.sha256_original) := by
  have hw := escreverBlocos_eq p.blocos n hall
  refine ⟨((List.range n).map (fun i => (p.blocos i).getD [])).flatten,
    if some (hash (((List.range n).map (fun i => (p.blocos i).getD [])).flatten)) =
        p.sha256_original then Verdict.verified else Verdict.corrupt,
    ?_, rfl, ?_, ?_⟩
  · simp [reconstruir_arquivo, hn, hw]
  · intro i hi hpref
    obtain ⟨s, hs⟩ := flatten_decomp (fun j => (p.blocos j).getD []) n i hi
    rw [hs, List.append_assoc,
        List.drop_left' (flatten_prefix_length _ bs i hpref),
        List.take_left]
  · by_cases hc : some (hash (((List.range n).map
        (fun i => (p.blocos i).getD [])).flatten)) = p.sha256_original
    · simp [hc]
    · simp [hc]

/-- Claim C3 witness: a two-block store with blocks `[10, 11]` and `[12]`
(block size 2) reconstructs under a digest function that matches the expected
digest. -/
theorem reconstruir_arquivo_spec_witness :
    (({ nome_arquivo := some "f", tamanho_arquivo := some 3, tamanho_bloco := 2,
        num_blocos := some 2, sha256_original := some "d",
        blocos := fun i => if i = 0 then some [10, 11] else if i = 1 then some [12] else none,
        tenho := {0, 1} } : PeerState).num_blocos = some 2) ∧
    (∀ i, i < 2 →
      (({ nome_arquivo := some "f", tamanho_arquivo := some 3, tamanho_bloco := 2,
          num_blocos := some 2, sha256_original := some "d",
          blocos := fun i => if i = 0 then some [10, 11] else if i = 1 then some [12] else none,
          tenho := {0, 1} } : PeerState).blocos i).isSome) ∧
    ∃ out v, reconstruir_arquivo (fun _ => "d")
        { nome_arquivo := some "f", tamanho_arquivo := some 3, tamanho_bloco := 2,
          num_blocos := some 2, sha256_original := some "d",
          blocos := fun i => if i = 0 then some [10, 11] else if i = 1 then some [12] else none,
          tenho := {0, 1} } = some (out, v) ∧
      out = ((List.range 2).map (fun i =>
        ((fun i => if i = 0 then some [10, 11] else if i = 1 then some [12] else none :
          Nat → Option (List Nat)) i).getD [])).flatten ∧
      (∀ i, i < 2 → (∀ j, j < i →
          (((fun i => if i = 0 then some [10, 11] else if i = 1 then some [12] else none :
            Nat → Option (List Nat)) j).getD []).length = 2) →
        (out.drop (i * 2)).take
            (((fun i => if i = 0 then some [10, 11] else if i = 1 then some [12] else none :
              Nat → Option (List Nat)) i).getD []).length =
          ((fun i => if i = 0 then some [10, 11] else if i = 1 then some [12] else none :
            Nat → Option (List Nat)) i).getD []) ∧
      ((v = Verdict.verified) ↔ some ((fun _ => "d" : List Nat → String) out) = some "d") :=
  ⟨rfl, by decide,
   reconstruir_arquivo_spec (fun _ => "d")
     { nome_arquivo := some "f", tamanho_arquivo := some 3, tamanho_bloco := 2,
       num_blocos := some 2, sha256_original := some "d",
       blocos := fun i => if i = 0 then some [10, 11] else if i = 1 then some [12] else none,
       tenho := {0, 1} } 2 2 rfl (by decide)⟩
